import Mathlib

/-!
Verification of `gnocchi/chef.py` (class `Chef`).

The Chef composes four external collaborators — the coordination/lock
service (`coord`), the measurement ingestion driver (`incoming`), the
metadata indexer (`index`) and the series storage (`storage`) — into three
operations: `expunge_metrics`, `process_new_measures` and `refresh_metric`.

The collaborators are modelled as an environment `Env` of result oracles:
each collaborator call is given a fixed outcome (either a value or a raised
exception), and executing a Chef operation records every collaborator call
as an `Event` in a trace.  A computation is therefore a pair of the list of
events it performed and its final outcome (`Except Exc`), with Python
`try/except/finally` translated to the combinators `mtry` / `mfinally`.
-/

abbrev MetricId := Nat
abbrev Sack := Nat

/-- A metric record as the Chef sees it: only its id is ever consumed. -/
structure Metric where
  id : MetricId
  deriving DecidableEq, Repr

/-- Exceptions that can cross the Chef's collaborator boundary:
`indexer.NoSuchMetric`, the Chef's own `SackLockTimeoutError` (with its
message), a dict-lookup `KeyError`, and arbitrary other exceptions. -/
inductive Exc where
  | noSuchMetric : Exc
  | sackLockTimeout : String → Exc
  | keyError : Exc
  | other : Nat → Exc
  deriving DecidableEq, Repr

/-- One collaborator call performed by a Chef operation. -/
inductive Event where
  | listDeleted : Event
  | getLock : Sack → Event
  | acquire : Sack → Event
  | release : Sack → Event
  | deleteUnprocessed : MetricId → Event
  | deleteStorage : MetricId → Event
  | expungeIndex : MetricId → Event
  | listIn : List MetricId → Event
  | claim : List MetricId → Event
  | computeAndStore : MetricId → List Nat → Event
  deriving DecidableEq, Repr

/-- Outcomes of every collaborator call.  `sackForMetric` is pure (a stable
hash-based assignment with no error conditions; spec §4.1), all other calls
may raise. -/
structure Env where
  listDeleted : Except Exc (List Metric)
  sackForMetric : MetricId → Sack
  getLock : Sack → Except Exc Unit
  acquireBlocking : Sack → Bool → Except Exc Bool
  acquireTimeout : Sack → Nat → Except Exc Bool
  releaseLock : Sack → Except Exc Unit
  deleteUnprocessed : MetricId → Except Exc Unit
  storageDelete : MetricId → Except Exc Unit
  indexExpunge : MetricId → Except Exc Unit
  listIn : List MetricId → Except Exc (List Metric)
  claimMeasures : List MetricId → Except Exc (List (MetricId × List Nat))
  computeAndStore : MetricId → List Nat → Except Exc Unit

/-- A Chef computation: the trace of collaborator calls it performed and its
outcome (normal return or raised exception). -/
abbrev M (α : Type) := List Event × Except Exc α

def mret {α : Type} (a : α) : M α := ([], Except.ok a)

def mfail {α : Type} (e : Exc) : M α := ([], Except.error e)

/-- A single collaborator call: record the event, take the oracle outcome. -/
def call {α : Type} (ev : Event) (r : Except Exc α) : M α := ([ev], r)

/-- Sequencing: if `x` raised, the continuation never runs. -/
def mbind {α β : Type} (x : M α) (f : α → M β) : M β :=
  match x.2 with
  | Except.ok a => (x.1 ++ (f a).1, (f a).2)
  | Except.error e => (x.1, Except.error e)

/-- Python `try/except Exception`: events performed before the exception
remain in the trace, then the handler runs. -/
def mtry {α : Type} (x : M α) (h : Exc → M α) : M α :=
  match x.2 with
  | Except.ok a => (x.1, Except.ok a)
  | Except.error e => (x.1 ++ (h e).1, (h e).2)

/-- Python `try/finally`: the cleanup always runs; an exception raised by the
cleanup replaces the body's outcome, otherwise the body's outcome stands. -/
def mfinally {α : Type} (x : M α) (cleanup : M Unit) : M α :=
  (x.1 ++ cleanup.1,
   match cleanup.2 with
   | Except.ok _ => x.2
   | Except.error e => Except.error e)

/-- Translation of `Chef.get_sack_lock`: derive the (hashed, fixed-length) lock name from
the sack and ask the coordinator for the lock handle; `coord.get_lock` may
raise.  The handle is identified by its sack. -/
def get_sack_lock (env : Env) (s : Sack) : M Unit :=
  call (Event.getLock s) (env.getLock s)

/-- Python `metrics_by_id[mid]` where `metrics_by_id = {m.id: m for m in
metrics}`; the indexer returns at most one record per id, so the dict lookup
is the lookup of the metric with that id. -/
def findMetric : List Metric → MetricId → Option Metric
  | [], _ => none
  | m :: rest, i => if m.id = i then some m else findMetric rest i

/-- The `for metric, measures in six.iteritems(metrics_and_measures)` loop
of `process_new_measures`: each iteration calls
`self.storage.compute_and_store_timeseries(metrics_by_id[metric], measures)`.
A missing dict key raises `KeyError`. -/
def processPairs (env : Env) (metrics : List Metric) :
    List (MetricId × List Nat) → M Unit
  | [] => mret ()
  | (mid, measures) :: rest =>
    match findMetric metrics mid with
    | some m =>
        mbind (call (Event.computeAndStore m.id measures)
                    (env.computeAndStore m.id measures))
          (fun _ => processPairs env metrics rest)
    | none => mfail Exc.keyError

/-- Translation of `Chef.process_new_measures(metrics_to_process, sync=False)`: re-resolve
the ids against the indexer (outside any try block), then inside
`try/except` open the scoped batch claim and fold each claimed entry into
storage; on any exception re-raise when `sync` else log and swallow. -/
def process_new_measures (env : Env) (ids : List MetricId) (sync : Bool) : M Unit :=
  mbind (call (Event.listIn ids) (env.listIn ids)) (fun metrics =>
    mtry
      (mbind (call (Event.claim (metrics.map Metric.id))
                   (env.claimMeasures (metrics.map Metric.id)))
        (fun mm => processPairs env metrics mm))
      (fun e => if sync then mfail e else mret ()))

/-- Translation of `Chef.refresh_metric(metric, timeout)`: compute the sack, get its lock,
acquire with the bounded timeout; on failure raise `SackLockTimeoutError`
naming the metric; on success run `process_new_measures([str(metric.id)])`
(note: with its default `sync=False`) under `try/finally lock.release()`. -/
def refresh_metric (env : Env) (metric : Metric) (timeout : Nat) : M Unit :=
  mbind (get_sack_lock env (env.sackForMetric metric.id)) (fun _ =>
    mbind (call (Event.acquire (env.sackForMetric metric.id))
                (env.acquireTimeout (env.sackForMetric metric.id) timeout))
      (fun ok =>
        if ok then
          mfinally (process_new_measures env [metric.id] false)
            (call (Event.release (env.sackForMetric metric.id))
                  (env.releaseLock (env.sackForMetric metric.id)))
        else
          mfail (Exc.sackLockTimeout
            ("Unable to refresh metric: " ++ toString metric.id ++
             ". Metric is locked. Please try again."))))

/-- Stable insertion of one metric/sack pair into a list sorted by sack:
the pair is placed before the first element whose sack is not smaller, so
that building the sort right-to-left keeps equal sacks in input order. -/
def insertBySack (p : Metric × Sack) :
    List (Metric × Sack) → List (Metric × Sack)
  | [] => [p]
  | q :: rest => if p.2 ≤ q.2 then p :: q :: rest else q :: insertBySack p rest

/-- Python `sorted(..., key=ITEMGETTER_1)`: a stable sort by sack. -/
def sortBySack : List (Metric × Sack) → List (Metric × Sack)
  | [] => []
  | p :: rest => insertBySack p (sortBySack rest)

/-- Translation of `metrics_to_expunge`: pair every deleted metric with its
sack and sort the pairs by sack. -/
def metricsToExpunge (env : Env) (dels : List Metric) : List (Metric × Sack) :=
  sortBySack (dels.map (fun m => (m, env.sackForMetric m.id)))

/-- Python `itertools.groupby(..., key=ITEMGETTER_1)`: split into maximal
consecutive runs sharing the same sack. -/
def groupRuns : List (Metric × Sack) → List (Sack × List Metric)
  | [] => []
  | (m, s) :: rest =>
    match groupRuns rest with
    | [] => [(s, [m])]
    | (s2, ms) :: gs =>
        if s = s2 then (s, m :: ms) :: gs else (s, [m]) :: (s2, ms) :: gs

/-- The per-metric deletion body of `expunge_metrics`: delete unprocessed
measures, delete the stored series, then expunge the indexer record with
`indexer.NoSuchMetric` swallowed; any other exception re-raises when `sync`
else is logged and swallowed (continue with the next metric). -/
def expungeOneMetric (env : Env) (sync : Bool) (m : Metric) : M Unit :=
  mtry
    (mbind (call (Event.deleteUnprocessed m.id) (env.deleteUnprocessed m.id))
      (fun _ =>
        mbind (call (Event.deleteStorage m.id) (env.storageDelete m.id))
          (fun _ =>
            mtry (call (Event.expungeIndex m.id) (env.indexExpunge m.id))
              (fun e => if e = Exc.noSuchMetric then mret () else mfail e))))
    (fun e => if sync then mfail e else mret ())

/-- The `for metric, sack in metrics` loop over one sack group. -/
def expungeList (env : Env) (sync : Bool) : List Metric → M Unit
  | [] => mret ()
  | m :: rest =>
      mbind (expungeOneMetric env sync m) (fun _ => expungeList env sync rest)

/-- The `try/except` around lock handling in `expunge_metrics`: get the sack
lock, acquire with `blocking=sync`, and on success release immediately.
Returns whether the `else:` clause (the deletions) must run: `false` both
for the `continue` on a contended lock and for a swallowed exception in
async mode; in sync mode an exception re-raises. -/
def lockProbe (env : Env) (sync : Bool) (s : Sack) : M Bool :=
  mtry
    (mbind (get_sack_lock env s) (fun _ =>
      mbind (call (Event.acquire s) (env.acquireBlocking s sync)) (fun ok =>
        if ok then
          mbind (call (Event.release s) (env.releaseLock s)) (fun _ => mret true)
        else
          mret false)))
    (fun e => if sync then mfail e else mret false)

/-- One iteration of the sack-group loop of `expunge_metrics`. -/
def expungeGroup (env : Env) (sync : Bool) (s : Sack) (ms : List Metric) : M Unit :=
  mbind (lockProbe env sync s) (fun acquired =>
    if acquired then expungeList env sync ms else mret ())

/-- The sack-group loop of `expunge_metrics`. -/
def expungeGroups (env : Env) (sync : Bool) : List (Sack × List Metric) → M Unit
  | [] => mret ()
  | (s, ms) :: gs =>
      mbind (expungeGroup env sync s ms) (fun _ => expungeGroups env sync gs)

/-- Translation of `Chef.expunge_metrics(sync=False)`: list metrics marked deleted (outside
any try block), sort and group them by sack, and process each group. -/
def expunge_metrics (env : Env) (sync : Bool) : M Unit :=
  mbind (call Event.listDeleted env.listDeleted) (fun dels =>
    expungeGroups env sync (groupRuns (metricsToExpunge env dels)))

/-- The deletion-step events of `expunge_metrics`. -/
def isDeleteEvent : Event → Bool
  | Event.deleteUnprocessed _ => true
  | Event.deleteStorage _ => true
  | Event.expungeIndex _ => true
  | _ => false

/-- How many lock releases a trace contains. -/
def countRelease (tr : List Event) : Nat :=
  tr.countP (fun e => match e with | Event.release _ => true | _ => false)

/-- The arguments of the fold-and-persist calls a trace contains. -/
def computeCalls (tr : List Event) : List (MetricId × List Nat) :=
  tr.filterMap (fun e =>
    match e with
    | Event.computeAndStore i ms => some (i, ms)
    | _ => none)

/-- An all-succeeding environment with one sack; the per-claim environments
override single fields. -/
def okEnv : Env where
  listDeleted := Except.ok []
  sackForMetric := fun _ => 0
  getLock := fun _ => Except.ok ()
  acquireBlocking := fun _ _ => Except.ok true
  acquireTimeout := fun _ _ => Except.ok true
  releaseLock := fun _ => Except.ok ()
  deleteUnprocessed := fun _ => Except.ok ()
  storageDelete := fun _ => Except.ok ()
  indexExpunge := fun _ => Except.ok ()
  listIn := fun ids => Except.ok (ids.map Metric.mk)
  claimMeasures := fun ids => Except.ok (ids.map (fun i => (i, [i])))
  computeAndStore := fun _ _ => Except.ok ()

/-- Environment in which the storage fold-and-persist call always fails. -/
def envC1 : Env :=
  { okEnv with computeAndStore := fun _ _ => Except.error (Exc.other 0) }

/-- Environment in which the indexer's metric listing fails. -/
def envC2 : Env :=
  { okEnv with listIn := fun _ => Except.error (Exc.other 1) }

/-- Environment in which the listings succeed but the per-metric work
(storage folding, queue deletion) fails. -/
def envC2w : Env :=
  { okEnv with
    listDeleted := Except.ok [⟨1⟩]
    deleteUnprocessed := fun _ => Except.error (Exc.other 2)
    computeAndStore := fun _ _ => Except.error (Exc.other 2) }

/-- Environment whose batch claim yields one metric with an empty measure
sequence. -/
def envC3 : Env :=
  { okEnv with claimMeasures := fun _ => Except.ok [(1, [])] }

/-- Environment with two sack groups where deleting the queued measures of
the first metric of the first group fails. -/
def envC4 : Env :=
  { okEnv with
    listDeleted := Except.ok [⟨1⟩, ⟨2⟩, ⟨3⟩]
    sackForMetric := fun i => if i ≤ 2 then 0 else 1
    deleteUnprocessed := fun i =>
      if i = 1 then Except.error (Exc.other 3) else Except.ok () }

/-- Environment whose sack lock is contended (non-blocking acquisition
returns false). -/
def envC5 : Env :=
  { okEnv with
    listDeleted := Except.ok [⟨1⟩]
    acquireBlocking := fun _ _ => Except.ok false }

/-- Environment in which the indexer-expunge step reports the metric as
already absent. -/
def envC6 : Env :=
  { okEnv with indexExpunge := fun _ => Except.error Exc.noSuchMetric }

/-- Environment whose lock acquisition times out. -/
def envC7 : Env :=
  { okEnv with acquireTimeout := fun _ _ => Except.ok false }

/-- Environment in which obtaining the lock handle raises. -/
def envC10 : Env :=
  { okEnv with
    listDeleted := Except.ok [⟨1⟩]
    getLock := fun _ => Except.error (Exc.other 7) }

/-! Basic facts about the combinators. -/

theorem mbind_eq_ok {α β : Type} {x : M α} {a : α} (f : α → M β)
    (hx : x.2 = Except.ok a) :
    mbind x f = (x.1 ++ (f a).1, (f a).2) := by
  obtain ⟨tr, r⟩ := x
  have hr : r = Except.ok a := hx
  subst hr
  rfl

theorem mbind_eq_err {α β : Type} {x : M α} {e : Exc} (f : α → M β)
    (hx : x.2 = Except.error e) :
    mbind x f = (x.1, Except.error e) := by
  obtain ⟨tr, r⟩ := x
  have hr : r = Except.error e := hx
  subst hr
  rfl

theorem mtry_eq_ok {α : Type} {x : M α} {a : α} (h : Exc → M α)
    (hx : x.2 = Except.ok a) :
    mtry x h = x := by
  obtain ⟨tr, r⟩ := x
  have hr : r = Except.ok a := hx
  subst hr
  rfl

theorem mtry_eq_err {α : Type} {x : M α} {e : Exc} (h : Exc → M α)
    (hx : x.2 = Except.error e) :
    mtry x h = (x.1 ++ (h e).1, (h e).2) := by
  obtain ⟨tr, r⟩ := x
  have hr : r = Except.error e := hx
  subst hr
  rfl

theorem mfinally_fst {α : Type} (x : M α) (cleanup : M Unit) :
    (mfinally x cleanup).1 = x.1 ++ cleanup.1 := rfl

theorem mbind_assoc {α β γ : Type} (x : M α) (f : α → M β) (g : β → M γ) :
    mbind (mbind x f) g = mbind x (fun a => mbind (f a) g) := by
  obtain ⟨tr, r⟩ := x
  cases r with
  | error e => rfl
  | ok a =>
    rcases hfa : f a with ⟨tr2, r2⟩
    cases r2 with
    | error e =>
      simp [mbind, hfa]
    | ok b =>
      simp [mbind, hfa, List.append_assoc]

/-- An exception handler whose outcomes are all normal makes the whole
`try/except` terminate normally, whatever the body did. -/
theorem mtry_result_exists {α : Type} (x : M α) (h : Exc → M α)
    (hh : ∀ e, ∃ a, (h e).2 = Except.ok a) :
    ∃ a, (mtry x h).2 = Except.ok a := by
  obtain ⟨tr, r⟩ := x
  cases r with
  | ok a => exact ⟨a, rfl⟩
  | error e =>
    obtain ⟨a, ha⟩ := hh e
    exact ⟨a, ha⟩

theorem mtry_result_ok (x : M Unit) (h : Exc → M Unit)
    (hh : ∀ e, (h e).2 = Except.ok ()) :
    (mtry x h).2 = Except.ok () := by
  obtain ⟨a, ha⟩ := mtry_result_exists x h (fun e => ⟨(), hh e⟩)
  cases a
  exact ha

/-! Swallowing in asynchronous mode: everything after the initial indexer
listing returns normally when `sync = false`. -/

theorem process_new_measures_async_ok (env : Env) (ids : List MetricId)
    {metrics : List Metric} (h : env.listIn ids = Except.ok metrics) :
    (process_new_measures env ids false).2 = Except.ok () := by
  unfold process_new_measures
  rw [mbind_eq_ok _ (show (call (Event.listIn ids) (env.listIn ids)).2
        = Except.ok metrics from h)]
  exact mtry_result_ok _ _ (fun e => rfl)

theorem expungeOneMetric_async_ok (env : Env) (m : Metric) :
    (expungeOneMetric env false m).2 = Except.ok () := by
  unfold expungeOneMetric
  exact mtry_result_ok _ _ (fun e => rfl)

theorem expungeList_async_ok (env : Env) :
    ∀ ms : List Metric, (expungeList env false ms).2 = Except.ok ()
  | [] => rfl
  | m :: rest => by
    unfold expungeList
    rw [mbind_eq_ok _ (expungeOneMetric_async_ok env m)]
    exact expungeList_async_ok env rest

theorem lockProbe_async_res (env : Env) (s : Sack) :
    ∃ b, (lockProbe env false s).2 = Except.ok b := by
  unfold lockProbe
  exact mtry_result_exists _ _ (fun e => ⟨false, rfl⟩)

theorem expungeGroup_async_ok (env : Env) (s : Sack) (ms : List Metric) :
    (expungeGroup env false s ms).2 = Except.ok () := by
  unfold expungeGroup
  obtain ⟨b, hb⟩ := lockProbe_async_res env s
  rw [mbind_eq_ok _ hb]
  cases b with
  | true => exact expungeList_async_ok env ms
  | false => rfl

theorem expungeGroups_async_ok (env : Env) :
    ∀ gs : List (Sack × List Metric),
      (expungeGroups env false gs).2 = Except.ok ()
  | [] => rfl
  | (s, ms) :: gs => by
    unfold expungeGroups
    rw [mbind_eq_ok _ (expungeGroup_async_ok env s ms)]
    exact expungeGroups_async_ok env gs

theorem expunge_metrics_async_ok (env : Env) {dels : List Metric}
    (h : env.listDeleted = Except.ok dels) :
    (expunge_metrics env false).2 = Except.ok () := by
  unfold expunge_metrics
  rw [mbind_eq_ok _ (show (call Event.listDeleted env.listDeleted).2
        = Except.ok dels from h)]
  exact expungeGroups_async_ok env _

/-! Decomposition of the loops and of the lock probe. -/

theorem expungeList_append (env : Env) (sync : Bool) (xs ys : List Metric) :
    expungeList env sync (xs ++ ys)
      = mbind (expungeList env sync xs) (fun _ => expungeList env sync ys) := by
  induction xs with
  | nil => simp [expungeList, mbind, mret]
  | cons m rest ih => simp [expungeList, ih, mbind_assoc]

theorem expungeGroups_append (env : Env) (sync : Bool)
    (l1 l2 : List (Sack × List Metric)) :
    expungeGroups env sync (l1 ++ l2)
      = mbind (expungeGroups env sync l1) (fun _ => expungeGroups env sync l2) := by
  induction l1 with
  | nil => simp [expungeGroups, mbind, mret]
  | cons g gs ih =>
    obtain ⟨s, ms⟩ := g
    simp [expungeGroups, ih, mbind_assoc]

theorem lockProbe_acquired (env : Env) (sync : Bool) (s : Sack)
    (h1 : env.getLock s = Except.ok ())
    (h2 : env.acquireBlocking s sync = Except.ok true)
    (h3 : env.releaseLock s = Except.ok ()) :
    lockProbe env sync s
      = ([Event.getLock s, Event.acquire s, Event.release s], Except.ok true) := by
  unfold lockProbe get_sack_lock call
  rw [h1, h2, h3]
  rfl

theorem lockProbe_contended (env : Env) (sync : Bool) (s : Sack)
    (h1 : env.getLock s = Except.ok ())
    (h2 : env.acquireBlocking s sync = Except.ok false) :
    lockProbe env sync s
      = ([Event.getLock s, Event.acquire s], Except.ok false) := by
  unfold lockProbe get_sack_lock call
  rw [h1, h2]
  rfl

theorem lockProbe_getLock_err (env : Env) (sync : Bool) (s : Sack) {e : Exc}
    (h1 : env.getLock s = Except.error e) :
    lockProbe env sync s
      = ([Event.getLock s],
         if sync then Except.error e else Except.ok false) := by
  unfold lockProbe get_sack_lock call
  rw [h1]
  cases sync <;> rfl

theorem lockProbe_acquire_err (env : Env) (sync : Bool) (s : Sack) {e : Exc}
    (h1 : env.getLock s = Except.ok ())
    (h2 : env.acquireBlocking s sync = Except.error e) :
    lockProbe env sync s
      = ([Event.getLock s, Event.acquire s],
         if sync then Except.error e else Except.ok false) := by
  unfold lockProbe get_sack_lock call
  rw [h1, h2]
  cases sync <;> rfl

theorem lockProbe_release_err (env : Env) (sync : Bool) (s : Sack) {e : Exc}
    (h1 : env.getLock s = Except.ok ())
    (h2 : env.acquireBlocking s sync = Except.ok true)
    (h3 : env.releaseLock s = Except.error e) :
    lockProbe env sync s
      = ([Event.getLock s, Event.acquire s, Event.release s],
         if sync then Except.error e else Except.ok false) := by
  unfold lockProbe get_sack_lock call
  rw [h1, h2, h3]
  cases sync <;> rfl

/-! Facts about the measure-processing loop. -/

theorem findMetric_id :
    ∀ (l : List Metric) (i : MetricId) (m : Metric),
      findMetric l i = some m → m.id = i := by
  intro l
  induction l with
  | nil => intro i m h; simp [findMetric] at h
  | cons x rest ih =>
    intro i m h
    by_cases hx : x.id = i
    · simp only [findMetric, if_pos hx] at h
      injection h with h
      subst h
      exact hx
    · simp only [findMetric, if_neg hx] at h
      exact ih i m h

theorem processPairs_all_ok (env : Env) (metrics : List Metric) :
    ∀ mm : List (MetricId × List Nat),
      (∀ p ∈ mm, ∃ m, findMetric metrics p.1 = some m ∧
          env.computeAndStore p.1 p.2 = Except.ok ()) →
      processPairs env metrics mm
        = (mm.map (fun p => Event.computeAndStore p.1 p.2), Except.ok ()) := by
  intro mm
  induction mm with
  | nil => intro _; rfl
  | cons p rest ih =>
    intro h
    obtain ⟨m, hf, hc⟩ := h p (List.mem_cons_self p rest)
    obtain ⟨mid, meas⟩ := p
    have hid : m.id = mid := findMetric_id metrics mid m hf
    simp only [processPairs]
    rw [hf]
    simp only [hid]
    rw [mbind_eq_ok _ (show (call (Event.computeAndStore mid meas)
          (env.computeAndStore mid meas)).2 = Except.ok () from hc)]
    rw [ih (fun q hq => h q (List.mem_cons_of_mem _ hq))]
    simp [call]

theorem mem_mbind_fst {α β : Type} {x : M α} {f : α → M β} {ev : Event}
    (h : ev ∈ (mbind x f).1) :
    ev ∈ x.1 ∨ ∃ a, x.2 = Except.ok a ∧ ev ∈ (f a).1 := by
  obtain ⟨tr, r⟩ := x
  cases r with
  | error e => exact Or.inl h
  | ok a =>
    rcases List.mem_append.1 h with h1 | h2
    · exact Or.inl h1
    · exact Or.inr ⟨a, rfl, h2⟩

theorem processPairs_events (env : Env) (metrics : List Metric) :
    ∀ (mm : List (MetricId × List Nat)) (ev : Event),
      ev ∈ (processPairs env metrics mm).1 →
      ∃ i ms, ev = Event.computeAndStore i ms := by
  intro mm
  induction mm with
  | nil => intro ev h; simp [processPairs, mret] at h
  | cons p rest ih =>
    obtain ⟨mid, meas⟩ := p
    intro ev h
    simp only [processPairs] at h
    rcases hf : findMetric metrics mid with _ | m
    · rw [hf] at h
      simp [mfail] at h
    · rw [hf] at h
      rcases mem_mbind_fst h with h1 | ⟨a, _, h2⟩
      · refine ⟨m.id, meas, ?_⟩
        simpa [call] using h1
      · exact ih ev h2

theorem countRelease_append (l1 l2 : List Event) :
    countRelease (l1 ++ l2) = countRelease l1 + countRelease l2 := by
  simp [countRelease, List.countP_append]

theorem countRelease_processPairs (env : Env) (metrics : List Metric)
    (mm : List (MetricId × List Nat)) :
    countRelease (processPairs env metrics mm).1 = 0 := by
  rw [countRelease, List.countP_eq_zero]
  intro ev hev
  obtain ⟨i, ms, rfl⟩ := processPairs_events env metrics mm ev hev
  simp

theorem countRelease_mtry {x : M Unit} {h : Exc → M Unit}
    (hx : countRelease x.1 = 0) (hh : ∀ e, countRelease (h e).1 = 0) :
    countRelease (mtry x h).1 = 0 := by
  obtain ⟨tr, r⟩ := x
  cases r with
  | ok a => exact hx
  | error e =>
    show countRelease (tr ++ (h e).1) = 0
    rw [countRelease_append, hx, hh e]

theorem countRelease_pnm (env : Env) (ids : List MetricId) (sync : Bool) :
    countRelease (process_new_measures env ids sync).1 = 0 := by
  unfold process_new_measures
  cases hli : env.listIn ids with
  | error e =>
    rw [mbind_eq_err _ (show (call (Event.listIn ids) (Except.error e)).2
          = Except.error e from rfl)]
    rfl
  | ok metrics =>
    rw [mbind_eq_ok _ (show (call (Event.listIn ids) (Except.ok metrics)).2
          = Except.ok metrics from rfl)]
    show countRelease ([Event.listIn ids] ++ _) = 0
    rw [countRelease_append]
    have h1 : countRelease [Event.listIn ids] = 0 := rfl
    have h2 : countRelease (mtry
        (mbind (call (Event.claim (metrics.map Metric.id))
                     (env.claimMeasures (metrics.map Metric.id)))
          (fun mm => processPairs env metrics mm))
        (fun e => if sync then mfail e else mret ())).1 = 0 := by
      apply countRelease_mtry
      · cases hcm : env.claimMeasures (metrics.map Metric.id) with
        | error e =>
          rw [mbind_eq_err _ (show (call (Event.claim (metrics.map Metric.id))
                (Except.error e)).2 = Except.error e from rfl)]
          rfl
        | ok mm =>
          rw [mbind_eq_ok _ (show (call (Event.claim (metrics.map Metric.id))
                (Except.ok mm)).2 = Except.ok mm from rfl)]
          show countRelease ([Event.claim (metrics.map Metric.id)] ++ _) = 0
          rw [countRelease_append, countRelease_processPairs]
          rfl
      · intro e
        cases sync <;> rfl
    rw [h1, h2]

theorem computeCalls_append (l1 l2 : List Event) :
    computeCalls (l1 ++ l2) = computeCalls l1 ++ computeCalls l2 := by
  simp [computeCalls, List.filterMap_append]

theorem computeCalls_map (mm : List (MetricId × List Nat)) :
    computeCalls (mm.map (fun p => Event.computeAndStore p.1 p.2)) = mm := by
  induction mm with
  | nil => rfl
  | cons p rest ih =>
    obtain ⟨i, ms⟩ := p
    simp [computeCalls, List.filterMap_cons] at ih ⊢
    exact ih

/-! The claims. -/

/-- C1: the claim says that after the sack lock is acquired, `refresh_metric`
invokes measure processing synchronously so that any error raised while
processing the metric's measures propagates to the caller.  The code instead
calls `self.process_new_measures([str(metric.id)])` with the default
`sync=False`, which logs and swallows the failure: below, the storage
fold-and-persist call fails, the failing call is performed, and
`refresh_metric` nevertheless returns normally. -/
theorem refresh_metric_swallows_processing_error :
    envC1.computeAndStore 1 [1] = Except.error (Exc.other 0) ∧
    refresh_metric envC1 ⟨1⟩ 5
      = ([Event.getLock 0, Event.acquire 0, Event.listIn [1], Event.claim [1],
          Event.computeAndStore 1 [1], Event.release 0], Except.ok ()) :=
  ⟨rfl, rfl⟩

/-- C2 counterexample: the claim says `processNewMeasures(ids, sync=false)`
returns normally regardless of any collaborator failure; but the initial
indexer re-resolution (`index.list_metrics`) sits outside the try block, so
its failure propagates even in asynchronous mode. -/
theorem process_new_measures_async_raises_on_listing_failure :
    process_new_measures envC2 [1] false
      = ([Event.listIn [1]], Except.error (Exc.other 1)) := rfl

/-- C2 (amended): `expungeMetrics(sync=false)` and
`processNewMeasures(ids, sync=false)` return normally whatever the lock,
ingestion, storage and per-metric indexer calls do, provided the initial
indexer listing succeeds; a failure of that initial listing propagates even
in asynchronous mode. -/
theorem async_calls_return_normally_after_listing (env : Env) (ids : List MetricId) :
    (∀ dels, env.listDeleted = Except.ok dels →
        (expunge_metrics env false).2 = Except.ok ()) ∧
    (∀ metrics, env.listIn ids = Except.ok metrics →
        (process_new_measures env ids false).2 = Except.ok ()) :=
  ⟨fun _ h => expunge_metrics_async_ok env h,
   fun _ h => process_new_measures_async_ok env ids h⟩

/-- Witness for C2 (amended): with the queue deletion and the storage fold
both failing, both asynchronous calls still return normally. -/
theorem async_calls_return_normally_after_listing_witness :
    (expunge_metrics envC2w false).2 = Except.ok () ∧
    (process_new_measures envC2w [1] false).2 = Except.ok () :=
  ⟨(async_calls_return_normally_after_listing envC2w [1]).1 [⟨1⟩] rfl,
   (async_calls_return_normally_after_listing envC2w [1]).2 [⟨1⟩] rfl⟩

/-- C3 counterexample: the claim says no fold-and-persist call is made for a
metric whose claimed measure sequence is empty; but the loop over the
claimed mapping has no emptiness filter, so the entry `(1, [])` does receive
a `compute_and_store_timeseries` call. -/
theorem fold_called_for_empty_measures :
    envC3.claimMeasures [1] = Except.ok [(1, [])] ∧
    process_new_measures envC3 [1] false
      = ([Event.listIn [1], Event.claim [1], Event.computeAndStore 1 []],
         Except.ok ()) :=
  ⟨rfl, rfl⟩

/-- C3 (amended): in `process_new_measures` the storage fold-and-persist
operation is invoked for every entry of the claimed mapping, in order and
including entries whose measure sequence is empty (when the listing, the
claim, the dict lookups and the fold calls themselves succeed, the list of
fold-and-persist calls equals the claimed mapping exactly). -/
theorem fold_called_for_every_claimed_entry (env : Env) (ids : List MetricId)
    (sync : Bool) (metrics : List Metric) (mm : List (MetricId × List Nat))
    (h1 : env.listIn ids = Except.ok metrics)
    (h2 : env.claimMeasures (metrics.map Metric.id) = Except.ok mm)
    (h3 : ∀ p ∈ mm, ∃ m, findMetric metrics p.1 = some m ∧
        env.computeAndStore p.1 p.2 = Except.ok ()) :
    computeCalls (process_new_measures env ids sync).1 = mm := by
  unfold process_new_measures
  rw [mbind_eq_ok _ (show (call (Event.listIn ids) (env.listIn ids)).2
        = Except.ok metrics from h1)]
  have hbody : mbind (call (Event.claim (metrics.map Metric.id))
        (env.claimMeasures (metrics.map Metric.id)))
        (fun mm2 => processPairs env metrics mm2)
      = (Event.claim (metrics.map Metric.id)
           :: mm.map (fun p => Event.computeAndStore p.1 p.2), Except.ok ()) := by
    rw [mbind_eq_ok _ (show (call (Event.claim (metrics.map Metric.id))
          (env.claimMeasures (metrics.map Metric.id))).2 = Except.ok mm from h2)]
    rw [processPairs_all_ok env metrics mm h3]
    rfl
  rw [mtry_eq_ok _ (show _ = Except.ok () from by rw [hbody])]
  rw [hbody]
  rw [show (call (Event.listIn ids) (env.listIn ids)).1 = [Event.listIn ids] from rfl]
  rw [show (Event.claim (metrics.map Metric.id)
        :: mm.map (fun p => Event.computeAndStore p.1 p.2))
      = [Event.claim (metrics.map Metric.id)]
        ++ mm.map (fun p => Event.computeAndStore p.1 p.2) from rfl]
  rw [computeCalls_append, computeCalls_append, computeCalls_map]
  rfl

/-- Witness for C3 (amended): the claimed mapping `[(1, [])]` — one metric
with an empty measure sequence — yields exactly that one fold call. -/
theorem fold_called_for_every_claimed_entry_witness :
    computeCalls (process_new_measures envC3 [1] false).1 = [(1, [])] :=
  fold_called_for_every_claimed_entry envC3 [1] false [⟨1⟩] [(1, [])] rfl rfl
    (fun p hp => by
      simp only [List.mem_singleton] at hp
      subst hp
      exact ⟨⟨1⟩, rfl, rfl⟩)

/-- C6: for every metric in an expunged sack group the three deletion steps
run in this order — delete its unprocessed queued measures, delete its
stored series, expunge its indexer record — and a `NoSuchMetric` failure of
the indexer-expunge step is swallowed (the metric completes without
raising), in both sync and async mode. -/
theorem expunge_steps_order_and_nosuchmetric_swallowed (env : Env)
    (sync : Bool) (m : Metric)
    (h1 : env.deleteUnprocessed m.id = Except.ok ())
    (h2 : env.storageDelete m.id = Except.ok ())
    (h3 : env.indexExpunge m.id = Except.ok ()
        ∨ env.indexExpunge m.id = Except.error Exc.noSuchMetric) :
    expungeOneMetric env sync m
      = ([Event.deleteUnprocessed m.id, Event.deleteStorage m.id,
          Event.expungeIndex m.id], Except.ok ()) := by
  unfold expungeOneMetric call
  rw [h1, h2]
  rcases h3 with h3 | h3 <;> rw [h3] <;> rfl

/-- Witness for C6: the indexer reports the metric as already absent, in
sync mode; the three steps still run in order and no error is raised. -/
theorem expunge_steps_order_and_nosuchmetric_swallowed_witness :
    expungeOneMetric envC6 true ⟨1⟩
      = ([Event.deleteUnprocessed 1, Event.deleteStorage 1,
          Event.expungeIndex 1], Except.ok ()) :=
  expunge_steps_order_and_nosuchmetric_swallowed envC6 true ⟨1⟩ rfl rfl (Or.inr rfl)

/-- C7: if `refresh_metric` cannot acquire the metric's sack lock within the
given timeout, it raises `SackLockTimeoutError` whose message names the
metric, and no measure processing happens in that call (the trace holds
exactly the lock handle request and the failed acquisition). -/
theorem refresh_metric_lock_timeout_error (env : Env) (metric : Metric)
    (timeout : Nat)
    (h1 : env.getLock (env.sackForMetric metric.id) = Except.ok ())
    (h2 : env.acquireTimeout (env.sackForMetric metric.id) timeout
        = Except.ok false) :
    refresh_metric env metric timeout
      = ([Event.getLock (env.sackForMetric metric.id),
          Event.acquire (env.sackForMetric metric.id)],
         Except.error (Exc.sackLockTimeout
           ("Unable to refresh metric: " ++ toString metric.id ++
            ". Metric is locked. Please try again."))) := by
  unfold refresh_metric get_sack_lock call
  rw [h1, h2]
  rfl

/-- Witness for C7: a zero timeout on a held lock fails with the
lock-timeout error naming metric 1 and performs no processing. -/
theorem refresh_metric_lock_timeout_error_witness :
    refresh_metric envC7 ⟨1⟩ 0
      = ([Event.getLock 0, Event.acquire 0],
         Except.error (Exc.sackLockTimeout
           "Unable to refresh metric: 1. Metric is locked. Please try again.")) :=
  refresh_metric_lock_timeout_error envC7 ⟨1⟩ 0 rfl rfl

/-- C8: once `refresh_metric` has acquired the sack lock, the lock is
released exactly once on every exit path — whatever the nested measure
processing and the release call itself do (succeed or raise), the trace
holds exactly one release. -/
theorem refresh_metric_release_exactly_once (env : Env) (metric : Metric)
    (timeout : Nat)
    (h1 : env.getLock (env.sackForMetric metric.id) = Except.ok ())
    (h2 : env.acquireTimeout (env.sackForMetric metric.id) timeout
        = Except.ok true) :
    countRelease (refresh_metric env metric timeout).1 = 1 := by
  unfold refresh_metric get_sack_lock
  rw [mbind_eq_ok _ (show (call (Event.getLock (env.sackForMetric metric.id))
        (env.getLock (env.sackForMetric metric.id))).2 = Except.ok () from h1)]
  rw [mbind_eq_ok _ (show (call (Event.acquire (env.sackForMetric metric.id))
        (env.acquireTimeout (env.sackForMetric metric.id) timeout)).2
        = Except.ok true from h2)]
  show countRelease ([Event.getLock (env.sackForMetric metric.id)]
      ++ ([Event.acquire (env.sackForMetric metric.id)]
        ++ (mfinally (process_new_measures env [metric.id] false)
              (call (Event.release (env.sackForMetric metric.id))
                    (env.releaseLock (env.sackForMetric metric.id)))).1)) = 1
  rw [countRelease_append, countRelease_append, mfinally_fst,
      countRelease_append, countRelease_pnm]
  rfl

/-- Witness for C8: in the all-succeeding environment the refresh trace
holds exactly one release. -/
theorem refresh_metric_release_exactly_once_witness :
    countRelease (refresh_metric okEnv ⟨1⟩ 0).1 = 1 :=
  refresh_metric_release_exactly_once okEnv ⟨1⟩ 0 rfl rfl

/-- C5: in `expunge_metrics(sync=false)`, a sack group whose non-blocking
lock acquisition returns false is skipped whole: the call performs no
deletion step for that group (the trace goes straight from the failed
acquisition to the remaining groups), raises nothing, and continues with
the next sack group. -/
theorem expunge_async_contended_sack_skipped (env : Env) (dels : List Metric)
    (s : Sack) (ms : List Metric) (gs : List (Sack × List Metric))
    (h0 : env.listDeleted = Except.ok dels)
    (hg : groupRuns (metricsToExpunge env dels) = (s, ms) :: gs)
    (h1 : env.getLock s = Except.ok ())
    (h2 : env.acquireBlocking s false = Except.ok false) :
    expunge_metrics env false
      = (Event.listDeleted :: Event.getLock s :: Event.acquire s
           :: (expungeGroups env false gs).1,
         Except.ok ()) := by
  unfold expunge_metrics
  rw [mbind_eq_ok _ (show (call Event.listDeleted env.listDeleted).2
        = Except.ok dels from h0), hg]
  have hgrp : expungeGroup env false s ms
      = ([Event.getLock s, Event.acquire s], Except.ok ()) := by
    unfold expungeGroup
    rw [lockProbe_contended env false s h1 h2]
    rfl
  show (([Event.listDeleted] : List Event)
      ++ (mbind (expungeGroup env false s ms)
            (fun _ => expungeGroups env false gs)).1,
     (mbind (expungeGroup env false s ms)
        (fun _ => expungeGroups env false gs)).2) = _
  rw [hgrp, mbind_eq_ok _ (show (([Event.getLock s, Event.acquire s],
        Except.ok ()) : M Unit).2 = Except.ok () from rfl)]
  rw [expungeGroups_async_ok env gs]
  rfl

/-- Witness for C5: one pending-delete metric whose sack lock is contended;
the call returns normally having deleted nothing. -/
theorem expunge_async_contended_sack_skipped_witness :
    expunge_metrics envC5 false
      = ([Event.listDeleted, Event.getLock 0, Event.acquire 0],
         Except.ok ()) :=
  expunge_async_contended_sack_skipped envC5 [⟨1⟩] 0 [⟨1⟩] [] rfl rfl rfl rfl

/-- C10: in `expunge_metrics(sync=false)`, when obtaining the sack's lock
handle raises, or the non-blocking acquisition raises (rather than merely
returning false), the failure is swallowed at sack granularity: the whole
group is skipped with no deletion step for any of its metrics, and the call
continues with the next sack group (and returns normally). -/
theorem expunge_async_lock_exception_skips_sack (env : Env)
    (dels : List Metric) (s : Sack) (ms : List Metric)
    (gs : List (Sack × List Metric)) (e : Exc)
    (h0 : env.listDeleted = Except.ok dels)
    (hg : groupRuns (metricsToExpunge env dels) = (s, ms) :: gs)
    (h : env.getLock s = Except.error e
       ∨ (env.getLock s = Except.ok ()
           ∧ env.acquireBlocking s false = Except.error e)) :
    ∃ t, expunge_metrics env false
        = (Event.listDeleted :: (t ++ (expungeGroups env false gs).1),
           Except.ok ())
      ∧ ∀ ev ∈ t, isDeleteEvent ev = false := by
  have hmain : ∀ t2 : List Event, expungeGroup env false s ms = (t2, Except.ok ()) →
      expunge_metrics env false
        = (Event.listDeleted :: (t2 ++ (expungeGroups env false gs).1),
           Except.ok ()) := by
    intro t2 hgrp
    unfold expunge_metrics
    rw [mbind_eq_ok _ (show (call Event.listDeleted env.listDeleted).2
          = Except.ok dels from h0), hg]
    show (([Event.listDeleted] : List Event)
        ++ (mbind (expungeGroup env false s ms)
              (fun _ => expungeGroups env false gs)).1,
       (mbind (expungeGroup env false s ms)
          (fun _ => expungeGroups env false gs)).2) = _
    rw [hgrp, mbind_eq_ok _ (show ((t2, Except.ok ()) : M Unit).2
          = Except.ok () from rfl)]
    rw [expungeGroups_async_ok env gs]
    rfl
  rcases h with h | ⟨hgl, hacq⟩
  · refine ⟨[Event.getLock s], hmain _ ?_, ?_⟩
    · unfold expungeGroup
      rw [lockProbe_getLock_err env false s h]
      rfl
    · intro ev hev
      simp only [List.mem_singleton] at hev
      subst hev
      rfl
  · refine ⟨[Event.getLock s, Event.acquire s], hmain _ ?_, ?_⟩
    · unfold expungeGroup
      rw [lockProbe_acquire_err env false s hgl hacq]
      rfl
    · intro ev hev
      simp only [List.mem_cons, List.not_mem_nil, or_false] at hev
      rcases hev with rfl | rfl
      · rfl
      · rfl

/-- Witness for C10: obtaining the lock handle raises; the single sack group
is skipped, nothing is deleted and the call returns normally. -/
theorem expunge_async_lock_exception_skips_sack_witness :
    ∃ t, expunge_metrics envC10 false
        = (Event.listDeleted :: (t ++ (expungeGroups envC10 false []).1),
           Except.ok ())
      ∧ ∀ ev ∈ t, isDeleteEvent ev = false :=
  expunge_async_lock_exception_skips_sack envC10 [⟨1⟩] 0 [⟨1⟩] []
    (Exc.other 7) rfl rfl (Or.inl rfl)

/-- C4: in `expunge_metrics(sync=true)`, when a deletion step for some
metric fails (with any error other than a `NoSuchMetric` of the
indexer-expunge step, which `expungeOneMetric` swallows), the original
error is re-raised immediately: the whole call ends with that error and the
trace stops at the failing metric — no deletion step runs for the remaining
metrics of its sack group nor for any subsequent sack group. -/
theorem expunge_sync_reraises_and_stops (env : Env) (dels : List Metric)
    (gs1 : List (Sack × List Metric)) (s : Sack) (pre : List Metric)
    (m : Metric) (rest : List Metric) (gs2 : List (Sack × List Metric))
    (e : Exc)
    (h0 : env.listDeleted = Except.ok dels)
    (hg : groupRuns (metricsToExpunge env dels)
        = gs1 ++ (s, pre ++ m :: rest) :: gs2)
    (hgs1 : (expungeGroups env true gs1).2 = Except.ok ())
    (h1 : env.getLock s = Except.ok ())
    (h2 : env.acquireBlocking s true = Except.ok true)
    (h3 : env.releaseLock s = Except.ok ())
    (hpre : (expungeList env true pre).2 = Except.ok ())
    (hm : (expungeOneMetric env true m).2 = Except.error e) :
    expunge_metrics env true
      = (Event.listDeleted :: ((expungeGroups env true gs1).1
          ++ Event.getLock s :: Event.acquire s :: Event.release s ::
             ((expungeList env true pre).1 ++ (expungeOneMetric env true m).1)),
         Except.error e) := by
  have hlist : expungeList env true (pre ++ m :: rest)
      = ((expungeList env true pre).1 ++ (expungeOneMetric env true m).1,
         Except.error e) := by
    rw [expungeList_append, mbind_eq_ok _ hpre]
    rw [show expungeList env true (m :: rest)
          = mbind (expungeOneMetric env true m)
              (fun _ => expungeList env true rest) from rfl]
    rw [mbind_eq_err _ hm]
  have hgrp : expungeGroup env true s (pre ++ m :: rest)
      = (Event.getLock s :: Event.acquire s :: Event.release s ::
          ((expungeList env true pre).1 ++ (expungeOneMetric env true m).1),
         Except.error e) := by
    unfold expungeGroup
    rw [lockProbe_acquired env true s h1 h2 h3]
    rw [mbind_eq_ok _ (show (([Event.getLock s, Event.acquire s,
          Event.release s], Except.ok true) : M Bool).2
          = Except.ok true from rfl)]
    show ([Event.getLock s, Event.acquire s, Event.release s]
        ++ (expungeList env true (pre ++ m :: rest)).1,
       (expungeList env true (pre ++ m :: rest)).2) = _
    rw [hlist]
    rfl
  unfold expunge_metrics
  rw [mbind_eq_ok _ (show (call Event.listDeleted env.listDeleted).2
        = Except.ok dels from h0), hg]
  rw [expungeGroups_append]
  rw [mbind_eq_ok _ hgs1]
  rw [show expungeGroups env true ((s, pre ++ m :: rest) :: gs2)
        = mbind (expungeGroup env true s (pre ++ m :: rest))
            (fun _ => expungeGroups env true gs2) from rfl]
  rw [mbind_eq_err _ (show (expungeGroup env true s (pre ++ m :: rest)).2
        = Except.error e from by rw [hgrp])]
  rw [hgrp]
  rfl

/-- Witness for C4: sack 0 holds metrics 1 and 2, sack 1 holds metric 3;
deleting metric 1's queued measures fails; the call raises that error and
neither metric 2 nor sack 1 sees any deletion step. -/
theorem expunge_sync_reraises_and_stops_witness :
    expunge_metrics envC4 true
      = ([Event.listDeleted, Event.getLock 0, Event.acquire 0,
          Event.release 0, Event.deleteUnprocessed 1],
         Except.error (Exc.other 3)) :=
  expunge_sync_reraises_and_stops envC4 [⟨1⟩, ⟨2⟩, ⟨3⟩] [] 0 [] ⟨1⟩ [⟨2⟩]
    [(1, [⟨3⟩])] (Exc.other 3) rfl rfl rfl rfl rfl rfl rfl rfl

/-- C9: in the sack-group processing of `expunge_metrics`, whenever the
trace of a group contains any deletion-step event, the group's lock was
acquired and released first: the trace starts with the lock request, the
acquisition and the release, and every deletion event comes after the
release — no deletion ever happens while this call holds the sack lock. -/
theorem expunge_release_before_deletes (env : Env) (sync : Bool) (s : Sack)
    (ms : List Metric) (ev : Event)
    (hdel : isDeleteEvent ev = true)
    (hmem : ev ∈ (expungeGroup env sync s ms).1) :
    ∃ tr, (expungeGroup env sync s ms).1
        = Event.getLock s :: Event.acquire s :: Event.release s :: tr
      ∧ ev ∈ tr := by
  cases hgl : env.getLock s with
  | error e =>
    exfalso
    have hp := lockProbe_getLock_err env sync s hgl
    unfold expungeGroup at hmem
    rw [hp] at hmem
    cases sync <;> simp [mbind, mret] at hmem <;>
      (subst hmem; simp [isDeleteEvent] at hdel)
  | ok u =>
    cases u
    cases hacq : env.acquireBlocking s sync with
    | error e =>
      exfalso
      have hp := lockProbe_acquire_err env sync s hgl hacq
      unfold expungeGroup at hmem
      rw [hp] at hmem
      cases sync <;> simp [mbind, mret] at hmem <;>
        (rcases hmem with rfl | rfl <;> simp [isDeleteEvent] at hdel)
    | ok b =>
      cases b with
      | false =>
        exfalso
        have hp := lockProbe_contended env sync s hgl hacq
        unfold expungeGroup at hmem
        rw [hp] at hmem
        simp [mbind, mret] at hmem
        rcases hmem with rfl | rfl <;> simp [isDeleteEvent] at hdel
      | true =>
        cases hrel : env.releaseLock s with
        | error e =>
          exfalso
          have hp := lockProbe_release_err env sync s hgl hacq hrel
          unfold expungeGroup at hmem
          rw [hp] at hmem
          cases sync <;> simp [mbind, mret] at hmem <;>
            (rcases hmem with rfl | rfl | rfl <;> simp [isDeleteEvent] at hdel)
        | ok u2 =>
          cases u2
          have hp := lockProbe_acquired env sync s hgl hacq hrel
          unfold expungeGroup at hmem ⊢
          rw [hp] at hmem ⊢
          refine ⟨(expungeList env sync ms).1, ?_, ?_⟩
          · simp [mbind]
          · simp [mbind] at hmem
            rcases hmem with rfl | rfl | rfl | h
            · simp [isDeleteEvent] at hdel
            · simp [isDeleteEvent] at hdel
            · simp [isDeleteEvent] at hdel
            · exact h

/-- Witness for C9: in the all-succeeding environment, the group trace for
one metric is lock request, acquire, release, then the deletion steps, so
the queue-deletion event of metric 1 sits after the release. -/
theorem expunge_release_before_deletes_witness :
    ∃ tr, (expungeGroup okEnv false 0 [⟨1⟩]).1
        = Event.getLock 0 :: Event.acquire 0 :: Event.release 0 :: tr
      ∧ Event.deleteUnprocessed 1 ∈ tr :=
  expunge_release_before_deletes okEnv false 0 [⟨1⟩]
    (Event.deleteUnprocessed 1) rfl (by decide)
